import Mathlib

/-!
Shallow embedding of the OpenVINO anomaly task
(`src/otx/algorithms/anomaly/tasks/openvino.py`) from the
`training_extensions` repository, together with theorems checking the
natural-language specification against the code.

Conventions of the embedding:
* Python byte strings are `List Nat` (each entry a byte value).
* Python floats are modelled by `ℚ`; IEEE-754 float32 decoding
  (`np.frombuffer(..., dtype=np.float32)`) is implemented exactly on the
  representable (finite) values.
* Fallible code returns `Option`/`Except`; a raised Python exception is an
  `.error`/`none` value carrying the exception kind where the control flow
  distinguishes kinds (the `try/except (KeyError, JSONDecodeError)` block).
* External collaborators (the NNCF quantizer, the OpenVINO graph reader,
  the anomalib transform factory, the label-schema serializer) are
  parameters of the embedded functions, since the code under verification
  only orchestrates them.
-/

namespace OtxAnomalyOV

/-- A label of the task environment; only the fields the task reads. -/
structure Label where
  name : String
  is_anomalous : Bool
deriving DecidableEq, Repr

/-- A dataset item; `shapes_labels` models `item.get_shapes_labels()`. -/
structure DatasetItem where
  name : String
  shapes_labels : List Label
deriving DecidableEq, Repr

/-- `TaskType` members relevant to the anomaly task. -/
inductive TaskType
  | anomaly_classification
  | anomaly_detection
  | anomaly_segmentation
deriving DecidableEq, Repr

/-- `str(self.task_type).lower().split("_")[-1]` for the three anomaly
task types. -/
def TaskType.suffix : TaskType → String
  | .anomaly_classification => "classification"
  | .anomaly_detection => "detection"
  | .anomaly_segmentation => "segmentation"

/-- `OptimizationType` from the optimization interface: POT or NNCF. -/
inductive OptimizationType
  | POT
  | NNCF
deriving DecidableEq, Repr

/-- `ModelFormat` values used by the task. -/
inductive ModelFormat
  | OPENVINO
deriving DecidableEq, Repr

/-- `ModelOptimizationType` values used by the task. -/
inductive ModelOptimizationType
  | POT
deriving DecidableEq, Repr

/-- `OptimizationMethod` values used by the task. -/
inductive OptimizationMethod
  | QUANTIZATION
deriving DecidableEq, Repr

/-- `ModelPrecision` values used by the task. -/
inductive ModelPrecision
  | INT8
deriving DecidableEq, Repr

/-- One entry of an albumentations transform dictionary
(`transform_dict` in `_metadata_in_ir_format`): the class name plus the
fields the migration reads.  Fields not read for a given class keep their
defaults and never influence the embedded functions. -/
structure TransformDict where
  className : String
  mean : List ℚ := []
  std : List ℚ := []
  height : ℤ := 0
  width : ℤ := 0
deriving DecidableEq, Repr

/-- A metadata / configuration value.  `strList qs` is the space-separated
string `" ".join(map(str, qs))` produced by `_serialize_list`; the
underlying list is kept because Python's float-to-string conversion is
invertible (`float(str(x)) == x`), so splitting and parsing the string
recovers exactly `qs`. -/
inductive MetaValue
  | num (q : ℚ)
  | arr (qs : List ℚ)
  | str (s : String)
  | strList (qs : List ℚ)
  | strs (ss : List String)
  | boolean (b : Bool)
  | intVal (n : ℤ)
  | transformVal (ts : List TransformDict)
deriving DecidableEq, Repr

/-- Whether a metadata value is a scalar number (Python `float`/numpy
scalar), as opposed to an array, string, etc. -/
def MetaValue.isNum : MetaValue → Bool
  | .num _ => true
  | _ => false

/-- A metadata mapping (the Python `dict` decoded from JSON or built by
the legacy path), as an association list with `dict` replace-on-insert
semantics. -/
abbrev Metadata := List (String × MetaValue)

/-- `_serialize_list`: `" ".join(map(str, arr))`, kept as the wrapped
list (see `MetaValue.strList`). -/
def serialize_list (qs : List ℚ) : MetaValue := .strList qs

/-- A value stored under a key of a `ModelEntity`'s key→bytes store.
`raw bs` is an uninterpreted byte string (for example a packed float32
buffer); `json md` is the UTF-8 JSON serialization of the metadata
mapping `md` (so `json.loads` succeeds exactly on `json` blobs and fails
with `JSONDecodeError` on `raw` blobs). -/
inductive Blob
  | raw (bs : List Nat)
  | json (md : Metadata)
deriving DecidableEq, Repr

/-- `json.loads(blob.decode())`: succeeds exactly on JSON blobs. -/
def jsonLoads : Blob → Option Metadata
  | .raw _ => none
  | .json md => some md

/-- First-match lookup in an association list — Python `dict` access
`d[k]` (`none` models the `KeyError`). -/
def lookupKV {α β : Type} [DecidableEq α] : List (α × β) → α → Option β
  | [], _ => none
  | (a, b) :: t, k => if k = a then some b else lookupKV t k

/-- Insert with replacement into an association list — Python `dict`
assignment `d[k] = v` (replaces in place, preserving insertion order). -/
def insertKV {α β : Type} [DecidableEq α] (l : List (α × β)) (k : α) (v : β) :
    List (α × β) :=
  if (lookupKV l k).isSome then
    l.map (fun p => if p.1 = k then (k, v) else p)
  else
    l ++ [(k, v)]

/-- The `parameters` dictionary written to `model/config.json` by
`deploy`. -/
structure DeployParameters where
  type_of_model : String
  converter_type : String
  model_parameters : List (String × MetaValue)
deriving DecidableEq, Repr

/-- Content of one entry of the deployment zip archive: model bytes /
JSON written with `writestr`, or a file copied from the exportable-code
template directory with `arch.write` (identified by its host path, whose
content this layer does not read). -/
inductive ZipEntryData
  | blob (b : Blob)
  | configJson (p : DeployParameters)
  | hostFile (p : String)
deriving DecidableEq, Repr

/-- `ModelEntity`: the key→bytes store plus the entity fields the task
writes.  `exportable_code` holds the zip archive produced by `deploy`,
modelled as its list of (entry name, entry content) pairs. -/
structure ModelEntity where
  data : List (String × Blob) := []
  model_format : Option ModelFormat := none
  optimization_type : Option ModelOptimizationType := none
  optimization_methods : List OptimizationMethod := []
  precision : List ModelPrecision := []
  exportable_code : Option (List (String × ZipEntryData)) := none
deriving DecidableEq, Repr

/-- `model.get_data(key)`: `none` models the `KeyError` on a missing key. -/
def ModelEntity.get_data (m : ModelEntity) (key : String) : Option Blob :=
  lookupKV m.data key

/-- `model.set_data(key, data)`. -/
def ModelEntity.set_data (m : ModelEntity) (key : String) (v : Blob) :
    ModelEntity :=
  { m with data := insertKV m.data key v }

/-! ### IEEE-754 float32 decoding (`np.frombuffer(..., dtype=np.float32)`) -/

/-- Decode a 32-bit word as an IEEE-754 single-precision float, exactly,
into `ℚ`: a normal encoding denotes `(2^23 + frac) * 2^ex / 2^150`
(that is, `(1 + frac/2^23) * 2^(ex-127)`), a subnormal one
`frac / 2^149` (that is, `frac/2^23 * 2^(-126)`), negated when the sign
bit is set.  `none` for the non-finite encodings (infinities and NaNs),
which have no rational value. -/
def decodeF32 (w : Nat) : Option ℚ :=
  let sign : Nat := w / 2 ^ 31 % 2
  let ex : Nat := w / 2 ^ 23 % 2 ^ 8
  let frac : Nat := w % 2 ^ 23
  if ex = 255 then none
  else
    let mag : ℚ :=
      if ex = 0 then (frac : ℚ) / ((2 ^ 149 : ℕ) : ℚ)
      else (((2 ^ 23 + frac) * 2 ^ ex : ℕ) : ℚ) / ((2 ^ 150 : ℕ) : ℚ)
    some (if sign = 1 then -mag else mag)

/-- Group a byte string into little-endian 32-bit words; `none` when the
length is not a multiple of 4 (numpy raises `ValueError` then). -/
def bytesToWords : List Nat → Option (List Nat)
  | [] => some []
  | b0 :: b1 :: b2 :: b3 :: rest =>
      (bytesToWords rest).map (fun ws => (b0 + 256 * (b1 + 256 * (b2 + 256 * b3))) :: ws)
  | _ => none

/-- `np.frombuffer(blob, dtype=np.float32)`: decode a raw byte blob into
an array of float32 values.  A `json` blob stands for bytes the embedding
does not interpret as a float buffer. -/
def frombuffer : Blob → Option (List ℚ)
  | .raw bs => (bytesToWords bs).bind (fun ws => ws.mapM decodeF32)
  | .json _ => none

/-! ### Metadata resolution (`get_metadata` and its two population paths) -/

/-- The Python exception kinds the metadata code distinguishes:
`KeyError` and `json.decoder.JSONDecodeError` are caught by
`get_metadata`'s `except` clause; `valErr` stands for any other exception
(`ValueError`, `TypeError`, …), which propagates. -/
inductive MetaErr
  | keyErr
  | jsonErr
  | valErr
deriving DecidableEq, Repr

/-- `np.array(value, dtype=np.float32).item()`: coerce a JSON value to a
scalar float.  A number or a one-element array yields its value; anything
else raises (a non-`KeyError` exception). -/
def npItem : MetaValue → Option ℚ
  | .num q => some q
  | .arr [q] => some q
  | _ => none

/-- `_populate_metadata` (models v1.4 onwards): overwrite the four
threshold/normalization keys of the mapping with scalar values.  A missing
key raises `KeyError` (caught by the caller's `except`); a value that is
not scalar-coercible raises an uncaught exception. -/
def populate_metadata (md : Metadata) : Except MetaErr Metadata := do
  let fetch : String → Except MetaErr ℚ := fun key =>
    match lookupKV md key with
    | none => .error .keyErr
    | some v =>
      match npItem v with
      | none => .error .valErr
      | some q => .ok q
  let it ← fetch "image_threshold"
  let pt ← fetch "pixel_threshold"
  let mn ← fetch "min"
  let mx ← fetch "max"
  return insertKV (insertKV (insertKV (insertKV md
    "image_threshold" (.num it)) "pixel_threshold" (.num pt))
    "min" (.num mn)) "max" (.num mx)

/-- `np.frombuffer(model.get_data(key), dtype=np.float32)`: fetch one of
the separately stored legacy buffers and decode it; a missing key raises
`KeyError`, a malformed buffer raises a non-`KeyError` exception. -/
def legacyBuf (m : ModelEntity) (key : String) : Except MetaErr (List ℚ) :=
  match m.get_data key with
  | none => .error .keyErr
  | some b =>
    match frombuffer b with
    | none => .error .valErr
    | some qs => .ok qs

/-- `_populate_metadata_legacy` (models from version 1.2.x): decode the
four separately stored byte buffers with `np.frombuffer` — the values are
numpy **arrays** — and rebuild the transform entry from the task
configuration (`get_transforms` result, passed as `tcfg`). -/
def populate_metadata_legacy (m : ModelEntity) (tcfg : List TransformDict)
    (tt : TaskType) : Except MetaErr Metadata :=
  match legacyBuf m "image_threshold" with
  | .error e => .error e
  | .ok image_threshold =>
    match legacyBuf m "pixel_threshold" with
    | .error e => .error e
    | .ok pixel_threshold =>
      match legacyBuf m "min" with
      | .error e => .error e
      | .ok min_value =>
        match legacyBuf m "max" with
        | .error e => .error e
        | .ok max_value =>
          .ok [("transform", .transformVal tcfg),
               ("image_threshold", .arr image_threshold),
               ("pixel_threshold", .arr pixel_threshold),
               ("min", .arr min_value),
               ("max", .arr max_value),
               ("task", .str tt.suffix)]

/-- The body of `get_metadata`'s `try` block: decode the JSON blob under
`"metadata"` and run `_populate_metadata` on it. -/
def tryLoadMetadata (m : ModelEntity) : Except MetaErr Metadata :=
  match m.get_data "metadata" with
  | none => .error .keyErr
  | some b =>
    match jsonLoads b with
    | none => .error .jsonErr
    | some md => populate_metadata md

/-- `get_metadata`: try the v1.4 JSON path; on `KeyError` or
`JSONDecodeError` fall back to the legacy path; raise `ValueError` when no
model is attached.  Other exceptions from the `try` block propagate. -/
def get_metadata (model? : Option ModelEntity) (tcfg : List TransformDict)
    (tt : TaskType) : Except MetaErr Metadata :=
  match model? with
  | none => .error .valErr
  | some m =>
    match tryLoadMetadata m with
    | .ok md => .ok md
    | .error .keyErr => populate_metadata_legacy m tcfg tt
    | .error .jsonErr => populate_metadata_legacy m tcfg tt
    | .error .valErr => .error .valErr

/-! ### Legacy-to-IR migration (`_metadata_in_ir_format`) -/

/-- Python/numpy subtraction `metadata["max"] - metadata["min"]` on the
value kinds that can occur: scalar−scalar, array−scalar (numpy
broadcasting, including one-element arrays), array−array of equal length.
`none` models the `TypeError` on unsupported operand kinds. -/
def metaSub : MetaValue → MetaValue → Option MetaValue
  | .num a, .num b => some (.num (a - b))
  | .arr a, .num b => some (.arr (a.map (· - b)))
  | .num a, .arr b => some (.arr (b.map (a - ·)))
  | .arr a, .arr b =>
    if a.length = b.length then some (.arr (List.zipWith (· - ·) a b))
    else
      match a, b with
      | [x], _ => some (.arr (b.map (x - ·)))
      | _, [y] => some (.arr (a.map (· - y)))
      | _, _ => none
  | _, _ => none

/-- The IR metadata dictionary: keys are the `("model_info", <field>)`
pairs used by `_metadata_in_ir_format`. -/
abbrev IRDict := List ((String × String) × MetaValue)

/-- One iteration of the transforms loop of `_metadata_in_ir_format`:
`Normalize` embeds `mean_values`/`scale_values` scaled by 255, `Resize`
embeds `orig_height`/`orig_width`, every other transform kind is logged
and skipped. -/
def processTransform (acc : IRDict) (t : TransformDict) : IRDict :=
  if t.className = "Normalize" then
    insertKV (insertKV acc ("model_info", "mean_values")
        (serialize_list (t.mean.map (· * 255))))
      ("model_info", "scale_values") (serialize_list (t.std.map (· * 255)))
  else if t.className = "Resize" then
    insertKV (insertKV acc ("model_info", "orig_height") (.intVal t.height))
      ("model_info", "orig_width") (.intVal t.width)
  else
    acc

/-- The first loop of `_metadata_in_ir_format`: copy every metadata
entry except `transform`/`min`/`max` under a `("model_info", key)` key. -/
def irBase (md : Metadata) : IRDict :=
  md.foldl
    (fun acc kv =>
      if kv.1 = "transform" ∨ kv.1 = "min" ∨ kv.1 = "max" then acc
      else insertKV acc ("model_info", kv.1) kv.2) []

/-- The transforms loop of `_metadata_in_ir_format`: fold
`processTransform` over `metadata["transform"]["transform"]["transforms"]`
when present.  `none` models the `TypeError` when the `transform` entry
is not a transform dictionary. -/
def irTransforms (md : Metadata) (base : IRDict) : Option IRDict :=
  match lookupKV md "transform" with
  | none => some base
  | some (.transformVal ts) => some (ts.foldl processTransform base)
  | some _ => none

/-- The `min`/`max` fusion of `_metadata_in_ir_format`: when both are
present, embed `normalization_scale = metadata["max"] - metadata["min"]`.
`none` models the `TypeError` of an ill-typed subtraction. -/
def irScale (md : Metadata) (d1 : IRDict) : Option IRDict :=
  match lookupKV md "min", lookupKV md "max" with
  | some mn, some mx =>
    (metaSub mx mn).map
      (fun v => insertKV d1 ("model_info", "normalization_scale") v)
  | _, _ => some d1

/-- The fixed trailing entries of `_metadata_in_ir_format`. -/
def irTrailing (d2 : IRDict) : IRDict :=
  insertKV (insertKV (insertKV d2
      ("model_info", "reverse_input_channels") (.boolean false))
    ("model_info", "model_type") (.str "AnomalyDetection"))
    ("model_info", "labels") (.str "Normal Anomaly")

/-- The body of `_metadata_in_ir_format` after `get_metadata` returned
`md`: copy the plain entries, process the transform list, fuse
`min`/`max` into `normalization_scale`, and add the fixed trailing
entries. -/
def metadata_in_ir_format (md : Metadata) : Option IRDict :=
  (irTransforms md (irBase md)).bind fun d1 =>
    (irScale md d1).map irTrailing

/-! ### Exported-model configuration (`_get_openvino_configuration`) -/

/-- One iteration of the configuration loop: the IR `labels` entry is
split into `modelapi_labels`, serialized `mean_values`/`scale_values`
strings are parsed back into float lists, every other entry is copied
under its field name.  The `assert isinstance(value, str)` failures are
modelled as uncaught errors. -/
def configEntry (cfg : List (String × MetaValue)) (key : String × String)
    (v : MetaValue) : Except MetaErr (List (String × MetaValue)) :=
  if key.2 = "labels" then
    match v with
    | .str s => .ok (insertKV cfg "modelapi_labels" (.strs (s.splitOn " ")))
    | _ => .error .valErr
  else if key.2 = "mean_values" ∨ key.2 = "scale_values" then
    match v with
    | .strList qs => .ok (insertKV cfg key.2 (.arr qs))
    | _ => .error .valErr
  else
    .ok (insertKV cfg key.2 v)

/-- `_get_openvino_configuration`: the configuration dictionary required
by the exported model.  `labelSchemaRepr` stands for
`LabelSchemaMapper.forward(label_schema)` (an external serializer). -/
def get_openvino_configuration (model? : Option ModelEntity)
    (labelSchemaRepr : MetaValue) (tcfg : List TransformDict) (tt : TaskType) :
    Except MetaErr (List (String × MetaValue)) :=
  match model? with
  | none => .error .valErr
  | some m => do
    let md ← get_metadata (some m) tcfg tt
    match metadata_in_ir_format md with
    | none => .error .valErr
    | some ir =>
      ir.foldlM (fun cfg kv => configEntry cfg kv.1 kv.2)
        [("labels", labelSchemaRepr)]

/-! ### Deployment packaging (`deploy`) -/

/-- `os.path.join` for the relative two-component paths used here. -/
def ospJoin (a b : String) : String := a ++ "/" ++ b

/-- The arcname normalization performed by `ZipFile.write`
(`os.path.normpath` in `ZipInfo.from_file`): for the names used here it
only strips a leading `./`.  `ZipFile.writestr` stores its name verbatim. -/
def normpathArc (s : String) : String :=
  if s.take 2 = "./" then s.drop 2 else s

/-- `str(self.task_type).lower()` (the enum's name, lowercased). -/
def TaskType.lowerName : TaskType → String
  | .anomaly_classification => "anomaly_classification"
  | .anomaly_detection => "anomaly_detection"
  | .anomaly_segmentation => "anomaly_segmentation"

/-- Everything `deploy` reads from the task besides `output_model`:
the attached model, the task type, the recomputed transform config, the
serialized label schema and the exportable-code template directory. -/
structure DeployEnv where
  envModel : Option ModelEntity
  taskType : TaskType
  transformCfg : List TransformDict
  labelSchemaRepr : MetaValue
  workDir : String

/-- `deploy`: packages the attached model and the exportable-code
template files into a zip archive stored in
`output_model.exportable_code`.  Raises (leaving `output_model`
untouched) when no model is attached, when the configuration cannot be
built, or when a weight blob is missing. -/
def deploy (env : DeployEnv) (output0 : ModelEntity) :
    Except MetaErr Unit × ModelEntity :=
  match env.envModel with
  | none => (.error .valErr, output0)
  | some m =>
    match get_openvino_configuration (some m) env.labelSchemaRepr
        env.transformCfg env.taskType with
    | .error e => (.error e, output0)
    | .ok modelParams =>
      let parameters : DeployParameters :=
        { type_of_model := "AnomalyDetection"
          converter_type := env.taskType.lowerName.toUpper
          model_parameters := modelParams }
      match m.get_data "openvino.xml", m.get_data "openvino.bin" with
      | some xb, some bb =>
        let entries : List (String × ZipEntryData) :=
          [(ospJoin "model" "model.xml", .blob xb),
           (ospJoin "model" "model.bin", .blob bb),
           (ospJoin "model" "config.json", .configJson parameters),
           (normpathArc (ospJoin "python" "requirements.txt"),
             .hostFile (ospJoin env.workDir "requirements.txt")),
           (normpathArc (ospJoin "python" "LICENSE"),
             .hostFile (ospJoin env.workDir "LICENSE")),
           (normpathArc (ospJoin "python" "demo.py"),
             .hostFile (ospJoin env.workDir "demo.py")),
           (normpathArc (ospJoin "." "README.md"),
             .hostFile (ospJoin env.workDir "README.md"))]
        (.ok (), { output0 with exportable_code := some entries })
      | _, _ => (.error .keyErr, output0)

/-! ### Post-training quantization orchestration (`optimize`) -/

/-- `item.get_shapes_labels()[0].is_anomalous`: `none` models the
`IndexError` on an item without shape labels. -/
def firstAnomalous (it : DatasetItem) : Option Bool :=
  it.shapes_labels.head?.map Label.is_anomalous

/-- The calibration filter
`[item for item in dataset if item.get_shapes_labels()[0].is_anomalous]`,
evaluated left to right; the first item without shape labels raises. -/
def calibFilter : List DatasetItem → Option (List DatasetItem)
  | [] => some []
  | it :: rest => do
    let b ← firstAnomalous it
    let r ← calibFilter rest
    pure (if b then it :: r else r)

/-- Exceptions `optimize` can raise, by Python exception kind. -/
inductive OptError
  | valueError
  | runtimeError
  | indexError
  | keyError
  | metaError (e : MetaErr)
deriving DecidableEq, Repr

/-- Everything `optimize` reads from the task besides its arguments:
the attached model, the task type, the transform config recomputed for
`get_metadata`, the configured statistics subset size
(`hparams.pot_parameters.stat_subset_size`), and the external
collaborators: the graph-introspection predicate `check_if_quantized`
(applied to the stored graph bytes), the NNCF quantizer (graph bytes,
weight bytes and subset size to compressed graph and weight bytes), and
the serialized label schema. -/
structure OptimizeEnv where
  envModel : Option ModelEntity
  taskType : TaskType
  transformCfg : List TransformDict
  configSubsetSize : Nat
  quantizedCheck : Blob → Bool
  quantizeFn : Blob → Blob → Nat → Blob × Blob
  labelSchemaBytes : Blob

/-- Observable outcome of one `optimize` call: the exception raised (if
any), the final states of `output_model` and `task_environment.model`,
the sequence of progress percentages reported, and — as ghost
observations of source-internal values — the calibration dataset built at
the filter step and the subset size passed to the quantizer. -/
structure OptimizeOutcome where
  err : Option OptError
  output_model : ModelEntity
  envModelAfter : Option ModelEntity
  progress : List Nat
  calibration : Option (List DatasetItem)
  usedSubsetSize : Option Nat
deriving Repr

/-- `if optimization_parameters is not None: optimization_parameters.update_progress(...)`:
the progress events reported when a callback is attached. -/
def progressIf (hasParams : Bool) (ps : List Nat) : List Nat :=
  if hasParams then ps else []

/-- `optimize`, step for step in source order: reject non-POT types,
filter the calibration set, require an attached model with stored
weights, reject an already-quantized graph, report 10%, clamp the subset
size, quantize, report 90%, write the compressed weights / label schema /
entity fields / metadata into `output_model`, publish it as the new
attached model and report 100%.  (The final in-memory inference-model
reload is external and assumed to succeed.) -/
def optimize (env : OptimizeEnv) (ot : OptimizationType)
    (dataset : List DatasetItem) (output0 : ModelEntity) (hasParams : Bool) :
    OptimizeOutcome :=
  if ot ≠ OptimizationType.POT then
    ⟨some .valueError, output0, env.envModel, [], none, none⟩
  else
    match calibFilter dataset with
    | none => ⟨some .indexError, output0, env.envModel, [], none, none⟩
    | some calib =>
      match env.envModel with
      | none => ⟨some .valueError, output0, env.envModel, [], some calib, none⟩
      | some m =>
        match m.get_data "openvino.xml", m.get_data "openvino.bin" with
        | some xmlB, some binB =>
          if env.quantizedCheck xmlB then
            ⟨some .runtimeError, output0, env.envModel, [], some calib, none⟩
          else
            let prog1 : List Nat := progressIf hasParams [10]
            let subset := min env.configSubsetSize calib.length
            let comp := env.quantizeFn xmlB binB subset
            let prog2 := prog1 ++ progressIf hasParams [90]
            let out1 := ((output0.set_data "openvino.xml" comp.1).set_data
              "openvino.bin" comp.2).set_data "label_schema.json"
              env.labelSchemaBytes
            let out2 := { out1 with
              model_format := some ModelFormat.OPENVINO
              optimization_type := some ModelOptimizationType.POT
              optimization_methods := [OptimizationMethod.QUANTIZATION]
              precision := [ModelPrecision.INT8] }
            match get_metadata (some m) env.transformCfg env.taskType with
            | .error e =>
              ⟨some (.metaError e), out2, env.envModel, prog2, some calib,
                some subset⟩
            | .ok md =>
              let out3 := out2.set_data "metadata" (.json md)
              ⟨none, out3, some out3,
                prog2 ++ progressIf hasParams [100],
                some calib, some subset⟩
        | _, _ => ⟨some .keyError, output0, env.envModel, [], some calib, none⟩

/-! ### Task construction (`OpenVINOTask.__init__`, label selection) -/

/-- The label-selection fragment of `OpenVINOTask.__init__`:
`normal_label = [l for l in labels if not l.is_anomalous][0]` and
`anomalous_label = [l for l in labels if l.is_anomalous][0]`.  `none`
models the `IndexError` raised by `[0]` when a filtered list is empty. -/
def init_labels (labels : List Label) : Option (Label × Label) := do
  let n ← (labels.filter (fun l => !l.is_anomalous)).head?
  let a ← (labels.filter (fun l => l.is_anomalous)).head?
  pure (n, a)

/-! ### Association-list (`dict`) lemmas -/

theorem lookup_map_replace {α β : Type} [DecidableEq α]
    (l : List (α × β)) (k k' : α) (v : β) :
    lookupKV (l.map fun p => if p.1 = k then (k, v) else p) k' =
      if k' = k then (if (lookupKV l k).isSome then some v else none)
      else lookupKV l k' := by
  induction l with
  | nil => by_cases hkk : k' = k <;> simp [lookupKV, hkk]
  | cons p t ih =>
    rcases p with ⟨a, b⟩
    by_cases hak : a = k
    · rw [List.map_cons]
      rw [show (if (a, b).1 = k then (k, v) else (a, b)) = (k, v) from by simp [hak]]
      subst hak
      by_cases hk' : k' = a
      · subst hk'
        simp [lookupKV, ih]
      · simp [lookupKV, hk', ih]
    · rw [List.map_cons]
      rw [show (if (a, b).1 = k then (k, v) else (a, b)) = (a, b) from by simp [hak]]
      by_cases hk' : k' = a
      · subst hk'
        simp [lookupKV, ih, hak, Ne.symm hak]
      · simp [lookupKV, hk', ih, Ne.symm hak]

theorem lookup_append_single {α β : Type} [DecidableEq α]
    (l : List (α × β)) (k k' : α) (v : β) :
    lookupKV (l ++ [(k, v)]) k' =
      (lookupKV l k').or (if k' = k then some v else none) := by
  induction l with
  | nil => simp [lookupKV]
  | cons p t ih =>
    rcases p with ⟨a, b⟩
    by_cases hk' : k' = a <;> simp [lookupKV, hk', ih]

theorem lookup_insertKV {α β : Type} [DecidableEq α]
    (l : List (α × β)) (k k' : α) (v : β) :
    lookupKV (insertKV l k v) k' = if k' = k then some v else lookupKV l k' := by
  unfold insertKV
  cases hs : (lookupKV l k).isSome
  · rw [if_neg (by simp [hs]), lookup_append_single]
    by_cases hkk : k' = k
    · subst hkk
      rcases h : lookupKV l k' with _ | w
      · simp
      · simp [h] at hs
    · simp [hkk]
  · rw [if_pos (by simp [hs]), lookup_map_replace]
    by_cases hkk : k' = k <;> simp [hs, hkk]

theorem lookup_insertKV_self {α β : Type} [DecidableEq α]
    (l : List (α × β)) (k : α) (v : β) :
    lookupKV (insertKV l k v) k = some v := by
  simp [lookup_insertKV]

theorem lookup_insertKV_ne {α β : Type} [DecidableEq α]
    (l : List (α × β)) (k k' : α) (v : β) (h : k' ≠ k) :
    lookupKV (insertKV l k v) k' = lookupKV l k' := by
  simp [lookup_insertKV, h]

/-! ### Concrete test fixtures -/

/-- Byte buffer of the float32 value `1.0` (little endian). -/
def f32one : List Nat := [0, 0, 128, 63]

/-- Byte buffer of the float32 value `0.0` (little endian). -/
def f32zero : List Nat := [0, 0, 0, 0]

/-- A non-anomalous label. -/
def nLabel : Label := ⟨"Normal", false⟩

/-- An anomalous label. -/
def aLabel : Label := ⟨"Anomalous", true⟩

/-- A dataset item whose first shape label is anomalous. -/
def itemA : DatasetItem := ⟨"imgA", [aLabel]⟩

/-- A dataset item whose first shape label is not anomalous. -/
def itemN : DatasetItem := ⟨"imgN", [nLabel]⟩

/-- A well-formed v1.4 metadata mapping. -/
def sampleMeta : Metadata :=
  [("image_threshold", .num 1), ("pixel_threshold", .num 2),
   ("min", .num 0), ("max", .num 1)]

/-- A model entity in the current (v1.4) storage format. -/
def sampleModel : ModelEntity :=
  { data := [("openvino.xml", .raw [60]), ("openvino.bin", .raw [0]),
             ("metadata", .json sampleMeta)] }

/-- A fresh output model entity. -/
def emptyModel : ModelEntity := {}

/-- An optimization environment around `sampleModel` whose external
collaborators behave trivially. -/
def sampleEnv : OptimizeEnv :=
  { envModel := some sampleModel
    taskType := .anomaly_classification
    transformCfg := []
    configSubsetSize := 300
    quantizedCheck := fun _ => false
    quantizeFn := fun x b _ => (x, b)
    labelSchemaBytes := .raw [7] }

/-! ### Claims -/

/-- **C3.** For every optimization type other than POT, `optimize` raises
`ValueError` immediately: the outcome is the error with `output_model`
and the attached model unchanged, no progress reported, and no
calibration work done. -/
theorem C3_optimize_rejects_non_pot (env : OptimizeEnv)
    (ot : OptimizationType) (dataset : List DatasetItem)
    (output0 : ModelEntity) (hasParams : Bool)
    (h : ot ≠ OptimizationType.POT) :
    optimize env ot dataset output0 hasParams =
      ⟨some OptError.valueError, output0, env.envModel, [], none, none⟩ := by
  unfold optimize
  rw [if_pos h]

/-- Witness for `C3_optimize_rejects_non_pot` at the NNCF type. -/
theorem C3_witness :
    optimize sampleEnv OptimizationType.NNCF [itemA] emptyModel true =
      ⟨some OptError.valueError, emptyModel, sampleEnv.envModel, [],
        none, none⟩ :=
  C3_optimize_rejects_non_pot sampleEnv .NNCF [itemA] emptyModel true
    (by decide)

/-- **C10.** The label-selection step of `OpenVINOTask.__init__` fails
(`IndexError`) when the label set lacks a non-anomalous or an anomalous
label, succeeds only when both are present, and then yields the first
non-anomalous and the first anomalous label. -/
theorem C10_init_labels (labels : List Label) :
    ((labels.filter (fun l => !l.is_anomalous) = [] ∨
        labels.filter (fun l => l.is_anomalous) = []) →
      init_labels labels = none)
  ∧ ((init_labels labels).isSome →
      labels.filter (fun l => !l.is_anomalous) ≠ [] ∧
      labels.filter (fun l => l.is_anomalous) ≠ [])
  ∧ (∀ n a, init_labels labels = some (n, a) →
      (labels.filter (fun l => !l.is_anomalous)).head? = some n ∧
      (labels.filter (fun l => l.is_anomalous)).head? = some a) := by
  refine ⟨?_, ?_, ?_⟩
  · rintro (h | h)
    · simp [init_labels, h]
    · cases h1 : (labels.filter (fun l => !l.is_anomalous)).head? <;>
        simp [init_labels, h, h1]
  · intro hs
    rcases h1 : (labels.filter (fun l => !l.is_anomalous)).head? with _ | n
    · simp [init_labels, h1] at hs
    rcases h2 : (labels.filter (fun l => l.is_anomalous)).head? with _ | a
    · simp [init_labels, h1, h2] at hs
    constructor
    · intro hw
      rw [hw] at h1
      simp at h1
    · intro hw
      rw [hw] at h2
      simp at h2
  · intro n a h
    rcases h1 : (labels.filter (fun l => !l.is_anomalous)).head? with _ | n'
    · simp [init_labels, h1] at h
    rcases h2 : (labels.filter (fun l => l.is_anomalous)).head? with _ | a'
    · simp [init_labels, h1, h2] at h
    simp [init_labels, h1, h2] at h
    exact ⟨by rw [h1, h.1], by rw [h2, h.2]⟩

/-- Witness for `C10_init_labels`: an all-anomalous label set fails, a
mixed one yields (first normal, first anomalous). -/
theorem C10_witness :
    init_labels [aLabel] = none ∧
    (([nLabel, aLabel].filter (fun l => !l.is_anomalous)).head? =
        some nLabel ∧
      ([nLabel, aLabel].filter (fun l => l.is_anomalous)).head? =
        some aLabel) :=
  ⟨(C10_init_labels [aLabel]).1 (Or.inl rfl),
   (C10_init_labels [nLabel, aLabel]).2.2 nLabel aLabel rfl⟩

/-- **C7.** `deploy` with no attached model raises (a configuration
error) before any archive is produced: the output model is returned
unchanged, in particular `exportable_code` is untouched. -/
theorem C7_deploy_requires_model (env : DeployEnv) (output0 : ModelEntity)
    (h : env.envModel = none) :
    deploy env output0 = (.error .valErr, output0) ∧
    (deploy env output0).2.exportable_code = output0.exportable_code := by
  constructor <;> simp [deploy, h]

/-- A deployment environment with no attached model. -/
def noModelDeployEnv : DeployEnv :=
  { envModel := none
    taskType := .anomaly_classification
    transformCfg := []
    labelSchemaRepr := .str "schema"
    workDir := "/work" }

/-- Witness for `C7_deploy_requires_model`. -/
theorem C7_witness :
    deploy noModelDeployEnv emptyModel = (.error .valErr, emptyModel) ∧
    (deploy noModelDeployEnv emptyModel).2.exportable_code =
      emptyModel.exportable_code :=
  C7_deploy_requires_model noModelDeployEnv emptyModel rfl

/-- Success decomposition of `optimize`: when no exception is raised the
run went through every step, so the calibration set comes from the
filter, the progress trace hits the three checkpoints, and the subset
size passed to the quantizer is the clamped one. -/
theorem optimize_success_shape (env : OptimizeEnv) (ot : OptimizationType)
    (dataset : List DatasetItem) (output0 : ModelEntity) (hasParams : Bool)
    (h : (optimize env ot dataset output0 hasParams).err = none) :
    ∃ calib, calibFilter dataset = some calib ∧
      (optimize env ot dataset output0 hasParams).progress =
        (if hasParams then [10, 90, 100] else []) ∧
      (optimize env ot dataset output0 hasParams).calibration = some calib ∧
      (optimize env ot dataset output0 hasParams).usedSubsetSize =
        some (min env.configSubsetSize calib.length) := by
  by_cases hot : ot ≠ OptimizationType.POT
  · unfold optimize at h
    rw [if_pos hot] at h
    simp at h
  rw [not_ne_iff] at hot
  subst hot
  unfold optimize at h ⊢
  rw [if_neg (by simp)] at h ⊢
  split at h
  · simp at h
  rename_i calib hc
  split at h
  · simp at h
  rename_i m hm
  split at h
  case _ =>
    split at h
    case isTrue => simp at h
    case isFalse hq =>
      split at h
      · simp at h
      rename_i md hmd
      refine ⟨calib, hc, ?_, ?_, ?_⟩ <;> rw [if_neg hq] <;>
        cases hasParams <;> rfl
  case _ => simp at h

/-- **C5.** In a successful `optimize` call with a progress callback
attached, the callback is invoked exactly at 10, 90 and 100 in that
order; in particular the reported sequence is non-decreasing. -/
theorem C5_progress_checkpoints (env : OptimizeEnv)
    (dataset : List DatasetItem) (output0 : ModelEntity)
    (h : (optimize env .POT dataset output0 true).err = none) :
    (optimize env .POT dataset output0 true).progress = [10, 90, 100] ∧
    List.Chain' (· ≤ ·) (optimize env .POT dataset output0 true).progress := by
  obtain ⟨calib, _, hp, _, _⟩ :=
    optimize_success_shape env .POT dataset output0 true h
  have hp' : (optimize env .POT dataset output0 true).progress =
      [10, 90, 100] := by
    rw [hp]
    rfl
  rw [hp']
  refine ⟨rfl, ?_⟩
  simp [List.chain'_cons]

/-- Witness for `C5_progress_checkpoints` on a concrete successful run. -/
theorem C5_witness :
    (optimize sampleEnv .POT [itemA] emptyModel true).progress =
      [10, 90, 100] ∧
    List.Chain' (· ≤ ·)
      (optimize sampleEnv .POT [itemA] emptyModel true).progress :=
  C5_progress_checkpoints sampleEnv [itemA] emptyModel rfl

/-- **C6.** When the stored graph is reported as already quantized,
`optimize` raises `RuntimeError` before quantizing: no progress is
reported and neither `output_model` nor the attached model changes. -/
theorem C6_already_quantized (env : OptimizeEnv)
    (dataset : List DatasetItem) (output0 : ModelEntity) (hasParams : Bool)
    (m : ModelEntity) (xmlB binB : Blob) (calib : List DatasetItem)
    (hm : env.envModel = some m)
    (hc : calibFilter dataset = some calib)
    (hx : m.get_data "openvino.xml" = some xmlB)
    (hb : m.get_data "openvino.bin" = some binB)
    (hq : env.quantizedCheck xmlB = true) :
    optimize env .POT dataset output0 hasParams =
      ⟨some OptError.runtimeError, output0, env.envModel, [],
        some calib, none⟩ := by
  unfold optimize
  rw [if_neg (by simp), hc, hm]
  try dsimp only
  rw [hx, hb]
  try dsimp only
  rw [hq]
  rfl

/-- An optimization environment whose graph-introspection predicate
reports every graph as quantized. -/
def sampleEnvQ : OptimizeEnv := { sampleEnv with quantizedCheck := fun _ => true }

/-- Witness for `C6_already_quantized`. -/
theorem C6_witness :
    optimize sampleEnvQ .POT [itemA] emptyModel true =
      ⟨some OptError.runtimeError, emptyModel, sampleEnvQ.envModel, [],
        some [itemA], none⟩ :=
  C6_already_quantized sampleEnvQ [itemA] emptyModel true sampleModel
    (.raw [60]) (.raw [0]) [itemA] rfl rfl rfl rfl rfl

/-- Whether the first shape label of an item is anomalous (for items
that have at least one shape label). -/
def anomFirst (it : DatasetItem) : Bool := (firstAnomalous it).getD false

/-- On a dataset whose items all carry at least one shape label, the
calibration comprehension succeeds and equals the filter by
first-label anomaly. -/
theorem calibFilter_eq_filter (ds : List DatasetItem)
    (hall : ∀ it ∈ ds, it.shapes_labels ≠ []) :
    calibFilter ds = some (ds.filter anomFirst) := by
  induction ds with
  | nil => rfl
  | cons it rest ih =>
    have h1 : it.shapes_labels ≠ [] := hall it (by simp)
    have hrest : calibFilter rest = some (rest.filter anomFirst) :=
      ih (fun x hx => hall x (by simp [hx]))
    rcases hl : it.shapes_labels with _ | ⟨l, ls⟩
    · exact absurd hl h1
    cases hla : l.is_anomalous <;>
      simp [calibFilter, firstAnomalous, hl, hla, hrest, anomFirst,
        List.filter_cons]

/-- Calibration and clamped subset size in every branch of a POT
`optimize` run that got past the filter step. -/
theorem optimize_calibration_branches (env : OptimizeEnv)
    (dataset : List DatasetItem) (output0 : ModelEntity) (hasParams : Bool)
    (calib : List DatasetItem) (hc : calibFilter dataset = some calib) :
    (optimize env .POT dataset output0 hasParams).calibration = some calib ∧
    ∀ s, (optimize env .POT dataset output0 hasParams).usedSubsetSize =
        some s → s = min env.configSubsetSize calib.length := by
  unfold optimize
  rw [if_neg (by simp)]
  constructor
  · split
    · rename_i heq
      rw [heq] at hc
      cases hc
    · rename_i calib' heq
      rw [heq] at hc
      injection hc with hcc
      subst hcc
      split
      · rfl
      · split
        · split
          · rfl
          · split <;> rfl
        · rfl
  · intro s hs
    split at hs
    · simp at hs
    rename_i calib' heq
    rw [heq] at hc
    injection hc with hcc
    subst hcc
    split at hs
    · simp at hs
    split at hs
    case _ =>
      split at hs
      case isTrue => simp at hs
      case isFalse hq =>
        split at hs <;> (simp at hs; exact hs.symm)
    case _ => simp at hs

/-- **C4.** On a dataset of labeled items, `optimize` builds the
calibration set as exactly the items whose (first shape) label is
anomalous — empty when no item is anomalous — and any subset size passed
to the quantizer equals the configured size clamped to the calibration
set length. -/
theorem C4_calibration_and_clamp (env : OptimizeEnv)
    (dataset : List DatasetItem) (output0 : ModelEntity) (hasParams : Bool)
    (hall : ∀ it ∈ dataset, it.shapes_labels ≠ []) :
    (optimize env .POT dataset output0 hasParams).calibration =
      some (dataset.filter anomFirst)
  ∧ ((∀ it ∈ dataset, anomFirst it = false) →
      (optimize env .POT dataset output0 hasParams).calibration = some [])
  ∧ (∀ s, (optimize env .POT dataset output0 hasParams).usedSubsetSize =
        some s →
      s = min env.configSubsetSize (dataset.filter anomFirst).length) := by
  obtain ⟨h1, h2⟩ := optimize_calibration_branches env dataset output0
    hasParams (dataset.filter anomFirst) (calibFilter_eq_filter dataset hall)
  refine ⟨h1, ?_, h2⟩
  intro hnone
  rw [h1, List.filter_eq_nil_iff.mpr ?_]
  intro it hit
  simp [hnone it hit]

/-- Witness for `C4_calibration_and_clamp` on a mixed two-item dataset. -/
theorem C4_witness :
    (optimize sampleEnv .POT [itemA, itemN] emptyModel true).calibration =
      some ([itemA, itemN].filter anomFirst)
  ∧ (∀ s, (optimize sampleEnv .POT [itemA, itemN] emptyModel
        true).usedSubsetSize = some s →
      s = min sampleEnv.configSubsetSize
        ([itemA, itemN].filter anomFirst).length) :=
  ⟨(C4_calibration_and_clamp sampleEnv [itemA, itemN] emptyModel true
      (by decide)).1,
   (C4_calibration_and_clamp sampleEnv [itemA, itemN] emptyModel true
      (by decide)).2.2⟩

/-- A legacy (v1.2.x) model artifact: no `metadata` JSON blob; the four
float32 buffers stored under separate keys. -/
def legacyModel : ModelEntity :=
  { data := [("image_threshold", .raw f32one), ("pixel_threshold", .raw f32one),
             ("min", .raw f32zero), ("max", .raw f32one)] }

/-- **C1 counterexample.** On a concrete legacy artifact, `get_metadata`
resolves the four keys to numpy *arrays* (`np.frombuffer` results), not
scalar numbers: the stated claim that the legacy path returns scalars is
false on the code (scalar coercion happens only in the v1.4 path). -/
theorem C1_counterexample :
    ((get_metadata (some legacyModel) [] .anomaly_classification).toOption.bind
        (fun md => lookupKV md "image_threshold")).map MetaValue.isNum =
      some false ∧
    ((get_metadata (some legacyModel) [] .anomaly_classification).toOption.bind
        (fun md => lookupKV md "pixel_threshold")).map MetaValue.isNum =
      some false ∧
    ((get_metadata (some legacyModel) [] .anomaly_classification).toOption.bind
        (fun md => lookupKV md "min")).map MetaValue.isNum = some false ∧
    ((get_metadata (some legacyModel) [] .anomaly_classification).toOption.bind
        (fun md => lookupKV md "max")).map MetaValue.isNum = some false :=
  ⟨rfl, rfl, rfl, rfl⟩

/-- **C1 amended.** For every legacy artifact (no `metadata` blob) on
which `get_metadata` succeeds, the four keys hold the *arrays* decoded
by `np.frombuffer` from the corresponding stored byte buffers (not
scalars). -/
theorem C1_amended_legacy_values_are_arrays (m : ModelEntity)
    (tcfg : List TransformDict) (tt : TaskType) (md : Metadata)
    (hnometa : m.get_data "metadata" = none)
    (h : get_metadata (some m) tcfg tt = .ok md) :
    ∃ it pt mn mx,
      legacyBuf m "image_threshold" = .ok it ∧
      legacyBuf m "pixel_threshold" = .ok pt ∧
      legacyBuf m "min" = .ok mn ∧
      legacyBuf m "max" = .ok mx ∧
      lookupKV md "image_threshold" = some (.arr it) ∧
      lookupKV md "pixel_threshold" = some (.arr pt) ∧
      lookupKV md "min" = some (.arr mn) ∧
      lookupKV md "max" = some (.arr mx) := by
  have htry : tryLoadMetadata m = .error .keyErr := by
    unfold tryLoadMetadata
    rw [hnometa]
  unfold get_metadata at h
  dsimp only at h
  rw [htry] at h
  dsimp only at h
  unfold populate_metadata_legacy at h
  split at h
  · cases h
  rename_i it hit
  split at h
  · cases h
  rename_i pt hpt
  split at h
  · cases h
  rename_i mn hmn
  split at h
  · cases h
  rename_i mx hmx
  injection h with hmd
  subst hmd
  exact ⟨it, pt, mn, mx, hit, hpt, hmn, hmx, rfl, rfl, rfl, rfl⟩

/-- Witness for `C1_amended_legacy_values_are_arrays` at the concrete
legacy artifact. -/
theorem C1_amended_witness :
    ∃ it pt mn mx,
      legacyBuf legacyModel "image_threshold" = .ok it ∧
      legacyBuf legacyModel "pixel_threshold" = .ok pt ∧
      legacyBuf legacyModel "min" = .ok mn ∧
      legacyBuf legacyModel "max" = .ok mx ∧
      lookupKV ((get_metadata (some legacyModel) []
          .anomaly_classification).toOption.getD []) "image_threshold" =
        some (.arr it) ∧
      lookupKV ((get_metadata (some legacyModel) []
          .anomaly_classification).toOption.getD []) "pixel_threshold" =
        some (.arr pt) ∧
      lookupKV ((get_metadata (some legacyModel) []
          .anomaly_classification).toOption.getD []) "min" =
        some (.arr mn) ∧
      lookupKV ((get_metadata (some legacyModel) []
          .anomaly_classification).toOption.getD []) "max" =
        some (.arr mx) :=
  C1_amended_legacy_values_are_arrays legacyModel [] .anomaly_classification
    ((get_metadata (some legacyModel) [] .anomaly_classification).toOption.getD [])
    rfl rfl

/-- A model artifact whose `metadata` blob is present and valid JSON but
holds an empty mapping, alongside intact legacy buffers. -/
def presentButIncomplete : ModelEntity :=
  { data := [("metadata", .json []),
             ("image_threshold", .raw f32one), ("pixel_threshold", .raw f32one),
             ("min", .raw f32zero), ("max", .raw f32one)] }

/-- **C2 counterexample.** The `metadata` key is present and its value
parses as JSON, yet `get_metadata` still falls back to the legacy
reconstruction — the parsed mapping lacks the required keys, and the
resulting `KeyError` (raised inside `_populate_metadata`) is caught by
the same `except` clause.  So the fallback does not occur in *exactly*
the two claimed cases. -/
theorem C2_counterexample :
    presentButIncomplete.get_data "metadata" = some (.json []) ∧
    jsonLoads (.json []) = some [] ∧
    get_metadata (some presentButIncomplete) [] .anomaly_classification =
      populate_metadata_legacy presentButIncomplete []
        .anomaly_classification ∧
    (populate_metadata_legacy presentButIncomplete []
        .anomaly_classification).isOk = true :=
  ⟨rfl, rfl, rfl, rfl⟩

/-- **C2 amended.** `get_metadata` falls back to the legacy
reconstruction exactly when the v1.4 `try` block raises `KeyError` or
`JSONDecodeError`: that is when the `metadata` blob is absent, when it
is not valid JSON, and *also* when it is valid JSON whose mapping lacks
a required key.  A `try`-block success is returned as such and any other
exception propagates. -/
theorem C2_amended_fallback_cases (m : ModelEntity)
    (tcfg : List TransformDict) (tt : TaskType) :
    (m.get_data "metadata" = none →
      get_metadata (some m) tcfg tt = populate_metadata_legacy m tcfg tt)
  ∧ (∀ bs, m.get_data "metadata" = some (.raw bs) →
      get_metadata (some m) tcfg tt = populate_metadata_legacy m tcfg tt)
  ∧ (∀ md0, m.get_data "metadata" = some (.json md0) →
      lookupKV md0 "image_threshold" = none →
      get_metadata (some m) tcfg tt = populate_metadata_legacy m tcfg tt)
  ∧ (∀ md', tryLoadMetadata m = .ok md' →
      get_metadata (some m) tcfg tt = .ok md')
  ∧ (tryLoadMetadata m = .error .valErr →
      get_metadata (some m) tcfg tt = .error .valErr) := by
  refine ⟨?_, ?_, ?_, ?_, ?_⟩
  · intro h
    have htry : tryLoadMetadata m = .error .keyErr := by
      unfold tryLoadMetadata
      rw [h]
    unfold get_metadata
    dsimp only
    rw [htry]
  · intro bs h
    have htry : tryLoadMetadata m = .error .jsonErr := by
      unfold tryLoadMetadata
      rw [h]
      rfl
    unfold get_metadata
    dsimp only
    rw [htry]
  · intro md0 h hlk
    have htry : tryLoadMetadata m = .error .keyErr := by
      unfold tryLoadMetadata
      rw [h]
      dsimp only [jsonLoads]
      unfold populate_metadata
      dsimp only
      rw [hlk]
      rfl
    unfold get_metadata
    dsimp only
    rw [htry]
  · intro md' h
    unfold get_metadata
    dsimp only
    rw [h]
  · intro h
    unfold get_metadata
    dsimp only
    rw [h]

/-- Witness for `C2_amended_fallback_cases`, exercising the
missing-required-key fallback on `presentButIncomplete` and the success
case on `sampleModel`. -/
theorem C2_amended_witness :
    get_metadata (some presentButIncomplete) [] .anomaly_classification =
      populate_metadata_legacy presentButIncomplete []
        .anomaly_classification ∧
    get_metadata (some sampleModel) [] .anomaly_classification =
      .ok (insertKV (insertKV (insertKV (insertKV sampleMeta
        "image_threshold" (.num 1)) "pixel_threshold" (.num 2))
        "min" (.num 0)) "max" (.num 1)) :=
  ⟨(C2_amended_fallback_cases presentButIncomplete []
      .anomaly_classification).2.2.1 [] rfl rfl,
   (C2_amended_fallback_cases sampleModel []
      .anomaly_classification).2.2.2.1 _ rfl⟩

/-- An unsupported transform kind is logged and skipped: the loop
iteration leaves the accumulated IR dictionary unchanged. -/
theorem processTransform_skip (acc : IRDict) (t : TransformDict)
    (h1 : t.className ≠ "Normalize") (h2 : t.className ≠ "Resize") :
    processTransform acc t = acc := by
  simp [processTransform, h1, h2]

/-- `processTransform` on a non-`Normalize` transform does not change
the `mean_values` entry. -/
theorem processTransform_not_normalize_mean (t : TransformDict)
    (acc : IRDict) (hn : t.className ≠ "Normalize") :
    lookupKV (processTransform acc t) ("model_info", "mean_values") =
      lookupKV acc ("model_info", "mean_values") := by
  by_cases hr : t.className = "Resize" <;>
    simp [processTransform, hn, hr, lookup_insertKV]

/-- `processTransform` on a non-`Normalize` transform does not change
the `scale_values` entry. -/
theorem processTransform_not_normalize_scale (t : TransformDict)
    (acc : IRDict) (hn : t.className ≠ "Normalize") :
    lookupKV (processTransform acc t) ("model_info", "scale_values") =
      lookupKV acc ("model_info", "scale_values") := by
  by_cases hr : t.className = "Resize" <;>
    simp [processTransform, hn, hr, lookup_insertKV]

/-- After the transforms loop, `mean_values`/`scale_values` hold the
scaled values of the *last* `Normalize` transform, and are untouched
when there is none. -/
theorem foldl_processTransform_normalize (ts : List TransformDict)
    (acc : IRDict) :
    lookupKV (ts.foldl processTransform acc) ("model_info", "mean_values") =
      (match (ts.filter (fun u => u.className = "Normalize")).getLast? with
       | some t => some (serialize_list (t.mean.map (· * 255)))
       | none => lookupKV acc ("model_info", "mean_values")) ∧
    lookupKV (ts.foldl processTransform acc) ("model_info", "scale_values") =
      (match (ts.filter (fun u => u.className = "Normalize")).getLast? with
       | some t => some (serialize_list (t.std.map (· * 255)))
       | none => lookupKV acc ("model_info", "scale_values")) := by
  induction ts generalizing acc with
  | nil => exact ⟨rfl, rfl⟩
  | cons t ts ih =>
    obtain ⟨ih1, ih2⟩ := ih (processTransform acc t)
    by_cases hn : t.className = "Normalize"
    · rw [List.foldl_cons, List.filter_cons_of_pos (by simp [hn])]
      rcases hfl : ts.filter (fun u => u.className = "Normalize") with _ | ⟨u, us⟩
      · rw [hfl] at ih1 ih2
        rw [hfl]
        refine ⟨?_, ?_⟩
        · rw [ih1]
          simp [processTransform, hn, lookup_insertKV]
        · rw [ih2]
          simp [processTransform, hn, lookup_insertKV]
      · rw [hfl] at ih1 ih2
        rw [hfl, List.getLast?_cons_cons]
        exact ⟨ih1, ih2⟩
    · rw [List.foldl_cons, List.filter_cons_of_neg (by simp [hn])]
      refine ⟨?_, ?_⟩
      · rw [ih1]
        cases (ts.filter (fun u => u.className = "Normalize")).getLast?
        · exact processTransform_not_normalize_mean t acc hn
        · rfl
      · rw [ih2]
        cases (ts.filter (fun u => u.className = "Normalize")).getLast?
        · exact processTransform_not_normalize_scale t acc hn
        · rfl

/-- The trailing fixed entries do not shadow any other key. -/
theorem lookup_irTrailing_ne (d2 : IRDict) (k : String × String)
    (h1 : k ≠ ("model_info", "reverse_input_channels"))
    (h2 : k ≠ ("model_info", "model_type"))
    (h3 : k ≠ ("model_info", "labels")) :
    lookupKV (irTrailing d2) k = lookupKV d2 k := by
  unfold irTrailing
  rw [lookup_insertKV_ne _ _ _ _ h3, lookup_insertKV_ne _ _ _ _ h2,
    lookup_insertKV_ne _ _ _ _ h1]

/-- The `min`/`max` fusion step changes only `normalization_scale`. -/
theorem irScale_lookup_ne (md : Metadata) (d1 d2 : IRDict)
    (h : irScale md d1 = some d2) (k : String × String)
    (hk : k ≠ ("model_info", "normalization_scale")) :
    lookupKV d2 k = lookupKV d1 k := by
  unfold irScale at h
  split at h
  · rename_i mn mx hmn hmx
    rcases hm : metaSub mx mn with _ | v
    · rw [hm] at h
      cases h
    · rw [hm] at h
      injection h with h2
      subst h2
      exact lookup_insertKV_ne _ _ _ _ hk
  · injection h with h2
    subst h2
    rfl

/-- When `min`/`max` are both present and their subtraction is
well-typed, the fusion step embeds
`normalization_scale = metadata["max"] - metadata["min"]`. -/
theorem irScale_ns_general (md : Metadata) (d1 d2 : IRDict)
    (mn mx v : MetaValue)
    (hmin : lookupKV md "min" = some mn)
    (hmax : lookupKV md "max" = some mx)
    (hsub : metaSub mx mn = some v)
    (h : irScale md d1 = some d2) :
    lookupKV d2 ("model_info", "normalization_scale") = some v := by
  unfold irScale at h
  rw [hmin, hmax] at h
  dsimp only at h
  rw [hsub] at h
  dsimp only [Option.map] at h
  injection h with h2
  subst h2
  exact lookup_insertKV_self _ _ _

/-- **C9.** During legacy migration: a `Normalize` transform embeds
`mean_values`/`scale_values` equal to its `mean`/`std` scaled by 255
(the last `Normalize` wins when several occur); when both `min` and
`max` are present and subtractable, a single
`normalization_scale = max - min` is embedded — stated for the general
well-typed subtraction, for scalar values (the v1.4 path), and for
equal-length arrays subtracted elementwise (the legacy path stores
one-element `np.frombuffer` arrays); and every unhandled transform kind
is skipped without raising, leaving the accumulated dictionary
unchanged. -/
theorem C9_migration (md : Metadata) (ir : IRDict)
    (h : metadata_in_ir_format md = some ir) :
    (∀ ts t, lookupKV md "transform" = some (.transformVal ts) →
      (ts.filter (fun u => u.className = "Normalize")).getLast? = some t →
      lookupKV ir ("model_info", "mean_values") =
        some (serialize_list (t.mean.map (· * 255))) ∧
      lookupKV ir ("model_info", "scale_values") =
        some (serialize_list (t.std.map (· * 255))))
  ∧ (∀ mn mx v, lookupKV md "min" = some mn →
      lookupKV md "max" = some mx →
      metaSub mx mn = some v →
      lookupKV ir ("model_info", "normalization_scale") = some v)
  ∧ (∀ a b, lookupKV md "min" = some (.num a) →
      lookupKV md "max" = some (.num b) →
      lookupKV ir ("model_info", "normalization_scale") =
        some (.num (b - a)))
  ∧ (∀ as bs, lookupKV md "min" = some (.arr as) →
      lookupKV md "max" = some (.arr bs) →
      bs.length = as.length →
      lookupKV ir ("model_info", "normalization_scale") =
        some (.arr (List.zipWith (· - ·) bs as)))
  ∧ (∀ acc t, t.className ≠ "Normalize" → t.className ≠ "Resize" →
      processTransform acc t = acc) := by
  have hns : ∀ mn mx v, lookupKV md "min" = some mn →
      lookupKV md "max" = some mx → metaSub mx mn = some v →
      lookupKV ir ("model_info", "normalization_scale") = some v := by
    intro mn mx v hmin hmax hsub
    unfold metadata_in_ir_format at h
    rcases hd1 : irTransforms md (irBase md) with _ | d1
    · rw [hd1] at h
      cases h
    rw [hd1] at h
    dsimp only [Option.bind] at h
    rcases hsc : irScale md d1 with _ | d2
    · rw [hsc] at h
      cases h
    rw [hsc] at h
    injection h with hir
    subst hir
    rw [lookup_irTrailing_ne _ _ (by decide) (by decide) (by decide)]
    exact irScale_ns_general md d1 d2 mn mx v hmin hmax hsub hsc
  refine ⟨?_, hns,
    fun a b hmin hmax => hns _ _ _ hmin hmax rfl,
    fun as bs hmin hmax hlen => hns _ _ _ hmin hmax (by simp [metaSub, hlen]),
    fun acc t h1 h2 => processTransform_skip acc t h1 h2⟩
  intro ts t htr hlast
  unfold metadata_in_ir_format at h
  have hd1 : irTransforms md (irBase md) =
      some (ts.foldl processTransform (irBase md)) := by
    unfold irTransforms
    rw [htr]
  rw [hd1] at h
  dsimp only [Option.bind] at h
  rcases hsc : irScale md (ts.foldl processTransform (irBase md))
    with _ | d2
  · rw [hsc] at h
    cases h
  rw [hsc] at h
  injection h with hir
  subst hir
  obtain ⟨f1, f2⟩ := foldl_processTransform_normalize ts (irBase md)
  rw [hlast] at f1 f2
  constructor
  · rw [lookup_irTrailing_ne _ _ (by decide) (by decide) (by decide),
      irScale_lookup_ne md _ _ hsc _ (by decide)]
    exact f1
  · rw [lookup_irTrailing_ne _ _ (by decide) (by decide) (by decide),
      irScale_lookup_ne md _ _ hsc _ (by decide)]
    exact f2

/-- A `Normalize` transform dictionary. -/
def normTD : TransformDict := { className := "Normalize", mean := [1], std := [2] }

/-- A `Resize` transform dictionary. -/
def resizeTD : TransformDict := { className := "Resize", height := 32, width := 32 }

/-- A transform dictionary of a kind the migration does not handle. -/
def unknownTD : TransformDict := { className := "ToTensorV2" }

/-- A v1.4-style metadata mapping (scalar `min`/`max`) exercising the
migration behaviours. -/
def migrationMeta : Metadata :=
  [("image_threshold", .num 1), ("min", .num 0), ("max", .num 3),
   ("transform", .transformVal [normTD, resizeTD, unknownTD])]

/-- A legacy-style metadata mapping: `min`/`max` are the one-element
arrays produced by `np.frombuffer`. -/
def migrationMetaLegacy : Metadata :=
  [("image_threshold", .arr [1]), ("min", .arr [0]), ("max", .arr [3]),
   ("transform", .transformVal [normTD, resizeTD, unknownTD])]

/-- Witness for `C9_migration` at concrete metadata mappings: the
scalar (v1.4-style) fusion, the one-element-array (legacy-style)
elementwise fusion, the `Normalize` scaling and the non-fatal skip. -/
theorem C9_witness :
    lookupKV ((metadata_in_ir_format migrationMeta).getD [])
        ("model_info", "mean_values") =
      some (serialize_list (normTD.mean.map (· * 255))) ∧
    lookupKV ((metadata_in_ir_format migrationMeta).getD [])
        ("model_info", "scale_values") =
      some (serialize_list (normTD.std.map (· * 255))) ∧
    lookupKV ((metadata_in_ir_format migrationMeta).getD [])
        ("model_info", "normalization_scale") = some (.num (3 - 0)) ∧
    lookupKV ((metadata_in_ir_format migrationMetaLegacy).getD [])
        ("model_info", "normalization_scale") =
      some (.arr (List.zipWith (· - ·) [(3 : ℚ)] [(0 : ℚ)])) ∧
    processTransform [] unknownTD = [] :=
  ⟨((C9_migration migrationMeta _ rfl).1 [normTD, resizeTD, unknownTD]
      normTD rfl rfl).1,
   ((C9_migration migrationMeta _ rfl).1 [normTD, resizeTD, unknownTD]
      normTD rfl rfl).2,
   (C9_migration migrationMeta _ rfl).2.2.1 0 3 rfl rfl,
   (C9_migration migrationMetaLegacy _ rfl).2.2.2.1 [0] [3] rfl rfl rfl,
   (C9_migration migrationMetaLegacy _ rfl).2.2.2.2 [] unknownTD
     (by decide) (by decide)⟩

/-- **C8.** For an attached model with stored weights and a buildable
configuration, `deploy` succeeds and stores in
`output_model.exportable_code` a zip archive whose entry names are
exactly the seven documented paths, and whose `model/model.xml` /
`model/model.bin` entries hold byte-for-byte the artifact's stored
`openvino.xml` / `openvino.bin` blobs (round-trip). -/
theorem C8_deploy_archive (env : DeployEnv) (output0 : ModelEntity)
    (m : ModelEntity) (xb bb : Blob)
    (hm : env.envModel = some m)
    (hcfg : (get_openvino_configuration (some m) env.labelSchemaRepr
        env.transformCfg env.taskType).isOk = true)
    (hx : m.get_data "openvino.xml" = some xb)
    (hb : m.get_data "openvino.bin" = some bb) :
    ∃ entries, deploy env output0 =
        (.ok (), { output0 with exportable_code := some entries }) ∧
      entries.map Prod.fst =
        ["model/model.xml", "model/model.bin", "model/config.json",
         "python/requirements.txt", "python/LICENSE", "python/demo.py",
         "README.md"] ∧
      lookupKV entries "model/model.xml" = some (.blob xb) ∧
      lookupKV entries "model/model.bin" = some (.blob bb) := by
  unfold deploy
  rw [hm]
  dsimp only
  rcases hcv : get_openvino_configuration (some m) env.labelSchemaRepr
      env.transformCfg env.taskType with e | cfg
  · rw [hcv] at hcfg
    simp [Except.isOk, Except.toBool] at hcfg
  dsimp only
  rw [hx, hb]
  refine ⟨_, rfl, ?_, ?_, ?_⟩
  · rfl
  · rfl
  · rfl

/-- A deployment environment around `sampleModel`. -/
def sampleDeployEnv : DeployEnv :=
  { envModel := some sampleModel
    taskType := .anomaly_classification
    transformCfg := []
    labelSchemaRepr := .str "schema"
    workDir := "/work" }

/-- Witness for `C8_deploy_archive` on the concrete sample model. -/
theorem C8_witness :
    ∃ entries, deploy sampleDeployEnv emptyModel =
        (.ok (), { emptyModel with exportable_code := some entries }) ∧
      entries.map Prod.fst =
        ["model/model.xml", "model/model.bin", "model/config.json",
         "python/requirements.txt", "python/LICENSE", "python/demo.py",
         "README.md"] ∧
      lookupKV entries "model/model.xml" = some (.blob (.raw [60])) ∧
      lookupKV entries "model/model.bin" = some (.blob (.raw [0])) :=
  C8_deploy_archive sampleDeployEnv emptyModel sampleModel
    (.raw [60]) (.raw [0]) rfl rfl rfl rfl

end OtxAnomalyOV
